import Mathlib

/-!
Verification development for the job orchestration core of `app.py`
(Flask video downloader).  The Python module keeps a global dict
`active_downloads : Dict[str, Dict[str, Any]]` guarded by `download_lock`,
with routes `start_download`, `get_download_status`, `list_downloads`,
`cancel_download`, `delete_download`, the background `download_worker`,
and the cleanup thread `DownloadManager._cleanup_old_files`.

The registry is embedded as an insertion-ordered association list (Python
dicts preserve insertion order).  Timestamps are naturals (the ISO strings
produced by `datetime.now().isoformat()` compare the same way their
underlying instants do).  Each lock-protected mutation block of the Python
code becomes one atomic operation here; interleavings of those atomic
blocks are modelled explicitly where a claim is about concurrency.
-/

/-- The five lifecycle states stored in a record's `status` field. -/
inductive JobState where
  | queued
  | downloading
  | completed
  | failed
  | cancelled
deriving DecidableEq

/-- The options bundle snapshotted at submission time (`start_download`,
lines 238-244 of `app.py`). -/
structure DownloadOptions where
  quality : String
  audio_only : Bool
  subtitles : Option (List String)
  playlist : Bool
  max_downloads : Option Nat
deriving DecidableEq

/-- One entry of `active_downloads`: the per-job dict created at line 248
of `app.py` together with the keys later operations may add
(`started_at`, `completed_at`, `cancelled_at`, `error`). -/
structure DownloadInfo where
  url : String
  status : JobState
  created_at : Nat
  options : DownloadOptions
  files : List String
  started_at : Option Nat
  completed_at : Option Nat
  cancelled_at : Option Nat
  error : Option String
deriving DecidableEq

/-- The global `active_downloads` table: an insertion-ordered association
list from download id to record. -/
abbrev Registry := List (String × DownloadInfo)

/-- Dictionary lookup, `active_downloads[download_id]` / `in` test. -/
def lookupReg (reg : Registry) (id : String) : Option DownloadInfo :=
  match reg with
  | [] => none
  | (k, v) :: rest => if k = id then some v else lookupReg rest id

/-- Point update of the record stored under `id`. -/
def updateReg (reg : Registry) (id : String) (f : DownloadInfo → DownloadInfo) : Registry :=
  reg.map (fun p => if p.1 = id then (p.1, f p.2) else p)

/-- `del active_downloads[download_id]`. -/
def eraseReg (reg : Registry) (id : String) : Registry :=
  reg.filter (fun p => decide (p.1 ≠ id))

/-- The predicate `d['status'] in ['queued', 'downloading']` used by the
admission check (line 227) and by the cancel guard (line 356). -/
def isActive (r : DownloadInfo) : Bool :=
  match r.status with
  | .queued => true
  | .downloading => true
  | _ => false

/-- A state from which the spec permits no further transition. -/
def isTerminal (s : JobState) : Bool :=
  match s with
  | .completed => true
  | .failed => true
  | .cancelled => true
  | _ => false

/-- `len([d for d in active_downloads.values() if d['status'] in
['queued', 'downloading']])` (line 226). -/
def activeCount (reg : Registry) : Nat :=
  (reg.filter (fun p => isActive p.2)).length

/-- The rejection message of line 231:
`f'Maximum concurrent downloads (\x7bcap\x7d) reached'`. -/
def admissionMessage (cap : Nat) : String :=
  "Maximum concurrent downloads (" ++ toString cap ++ ") reached"

/-- The dict literal inserted at line 248: state `queued`, empty file
list, no timestamps other than `created_at`, no error. -/
def freshRecord (url : String) (opts : DownloadOptions) (now : Nat) : DownloadInfo :=
  { url := url
    status := .queued
    created_at := now
    options := opts
    files := []
    started_at := none
    completed_at := none
    cancelled_at := none
    error := none }

/-- Result of the admission-and-create prefix of `start_download`. -/
inductive AdmitResult where
  | rejected (msg : String)
  | admitted (id : String)
deriving DecidableEq

/-- Lines 225-254 of `start_download`: count the active records, reject
with HTTP 429 when `active_count >= cap`, otherwise insert a fresh
`queued` record under a fresh id. -/
def start_download_create (cap : Nat) (reg : Registry) (id url : String)
    (opts : DownloadOptions) (now : Nat) : AdmitResult × Registry :=
  if cap ≤ activeCount reg then
    (.rejected (admissionMessage cap), reg)
  else
    (.admitted id, reg ++ [(id, freshRecord url opts now)])

/-- Outcome of one media-engine invocation as seen by `download_worker`:
`download_video` / `download_playlist` returned `True` (with the job
directory then listing `files`), returned `False`, or raised. -/
inductive EngineOutcome where
  | success (files : List String)
  | failure
  | raised (msg : String)
deriving DecidableEq

/-- First lock block of `download_worker` (lines 94-96): status becomes
`downloading`, `started_at` is set.  No check of the previous status is
made. -/
def workerStart (t : Nat) (r : DownloadInfo) : DownloadInfo :=
  { r with status := .downloading, started_at := some t }

/-- Final lock block of `download_worker` (lines 117-134): on success the
status becomes `completed`, `completed_at` is set and `files` is replaced
by the directory listing; on a reported failure the status becomes
`failed` with error `Download failed`; on a raised exception the status
becomes `failed` with the exception text.  Again no check of the previous
status is made. -/
def workerFinish (t : Nat) (o : EngineOutcome) (r : DownloadInfo) : DownloadInfo :=
  match o with
  | .success fs => { r with status := .completed, completed_at := some t, files := fs }
  | .failure => { r with status := .failed, error := some "Download failed" }
  | .raised m => { r with status := .failed, error := some m }

/-- The whole of `download_worker` on one record: the start block followed
by the finish block (the engine call between them touches no registry
state). -/
def download_worker (t1 t2 : Nat) (o : EngineOutcome) (r : DownloadInfo) : DownloadInfo :=
  workerFinish t2 o (workerStart t1 r)

/-- Result of `cancel_download`. -/
inductive CancelResult where
  | notFound
  | invalidState
  | cancelOk
deriving DecidableEq

/-- The mutation applied by a successful cancel (lines 360-361). -/
def cancelRecord (t : Nat) (r : DownloadInfo) : DownloadInfo :=
  { r with status := .cancelled, cancelled_at := some t }

/-- `cancel_download` (lines 349-366): 404 when the id is unknown, 400
when the status is not `queued`/`downloading` (registry untouched),
otherwise set `cancelled` and `cancelled_at`. -/
def cancel_download (reg : Registry) (id : String) (t : Nat) : CancelResult × Registry :=
  match lookupReg reg id with
  | none => (.notFound, reg)
  | some r =>
    if isActive r then (.cancelOk, updateReg reg id (cancelRecord t))
    else (.invalidState, reg)

/-- The effect of a cancel request on the single record it addresses:
identical to `cancel_download`'s effect on that record (no-op unless the
record is active). -/
def cancelStep (t : Nat) (r : DownloadInfo) : DownloadInfo :=
  if isActive r then cancelRecord t r else r

/-- `get_download_status` (lines 284-293): `none` is the 404 branch. -/
def get_download_status (reg : Registry) (id : String) : Option DownloadInfo :=
  lookupReg reg id

/-- Result of `delete_download`. -/
inductive DeleteResult where
  | notFound
  | ioError (msg : String)
  | deleteOk
deriving DecidableEq

/-- `delete_download` (lines 369-393): 404 when the id is unknown;
otherwise `shutil.rmtree` runs first (when the directory exists) and any
exception it raises is answered with HTTP 500 before `del` runs, leaving
the registry untouched; only after a successful removal is the entry
erased.  `rmError` is the outcome of `rmtree`. -/
def delete_download (reg : Registry) (id : String)
    (dirExists : Bool) (rmError : Option String) : DeleteResult × Registry :=
  match lookupReg reg id with
  | none => (.notFound, reg)
  | some _ =>
    if dirExists then
      match rmError with
      | some e => (.ioError e, reg)
      | none => (.deleteOk, eraseReg reg id)
    else (.deleteOk, eraseReg reg id)

/-- Stable insertion of one entry into a list sorted by `created_at`
descending: the entry goes in front of the first strictly older entry, so
entries with equal `created_at` keep their original relative order,
exactly as Python's stable `sorted(..., reverse=True)` does. -/
def insertDesc (p : String × DownloadInfo) :
    List (String × DownloadInfo) → List (String × DownloadInfo)
  | [] => [p]
  | q :: rest =>
    if q.2.created_at < p.2.created_at then p :: q :: rest
    else q :: insertDesc p rest

/-- Stable sort by `created_at` descending (line 309 of `app.py`). -/
def sortDesc : List (String × DownloadInfo) → List (String × DownloadInfo)
  | [] => []
  | p :: rest => insertDesc p (sortDesc rest)

/-- `list_downloads` (lines 296-320): optional status filter, stable sort
by `created_at` newest first, then `if limit:` truncation — the Python
truthiness test, so a limit of `0` (like an absent limit) truncates
nothing.  Negative limits are not modelled. -/
def list_downloads (reg : Registry) (statusFilter : Option JobState)
    (limit : Option Nat) : Registry :=
  let d := match statusFilter with
    | some s => reg.filter (fun p => decide (p.2.status = s))
    | none => reg
  let sorted := sortDesc d
  match limit with
  | some n => if n ≠ 0 then sorted.take n else sorted
  | none => sorted

/-- Python's `str.lower()`: lower-case every character. -/
def pyLower (s : String) : String := ⟨s.data.map Char.toLower⟩

/-- Python's `str.endswith(suffix)`: suffix test on the characters. -/
def pyEndsWith (s suffix : String) : Bool := suffix.data.isSuffixOf s.data

/-- Line 270: `[f for f in files if f.lower().endswith('.mp4')]`. -/
def mp4Filter (files : List String) : List String :=
  files.filter (fun f => pyEndsWith (pyLower f) ".mp4")

/-- The JSON answer of `start_download` after the synchronous worker
call. -/
inductive DownloadResponse where
  | ok (download_id : String) (files : List String) (file_url : String)
  | err (httpStatus : Nat) (msg : String)
deriving DecidableEq

/-- The URL prefix hard-coded at line 276. -/
def fileUrlBase : String := "https://testflask-ixf3.onrender.com/api/download/"

/-- Lines 259-281 of `start_download`, after the worker has returned: a
non-`completed` status is answered with HTTP 500 and the recorded error;
otherwise the `.mp4`-filtered file list is returned together with a
`file_url` built from its first element — when the filtered list is empty
that subscript raises `IndexError`, which the enclosing handler turns
into an HTTP 500 answer.  (Line 276 of the committed file is a Python
syntax slip, `'file_url' = f...`; the evident intent `'file_url': f...`
is embedded.) -/
def start_download_response (id : String) (info : DownloadInfo) : DownloadResponse :=
  if info.status = .completed then
    match mp4Filter info.files with
    | [] => .err 500 "list index out of range"
    | f :: _ => .ok id (mp4Filter info.files) (fileUrlBase ++ id ++ "/files/" ++ f)
  else
    .err 500 (match info.error with
      | some e => e
      | none => "Unknown error")

/-- The option defaults of lines 239-243 of `app.py`. -/
def defaultOptions : DownloadOptions :=
  { quality := "best"
    audio_only := false
    subtitles := none
    playlist := false
    max_downloads := none }

/-- A Python dict never holds two bindings for one key; the association
lists standing for `active_downloads` therefore have pairwise distinct
keys. -/
def NoDupKeys (reg : Registry) : Prop := (reg.map Prod.fst).Nodup

/-- The newest-first order of the listing: a later entry was created no
later than an earlier one. -/
def newerEq (a b : String × DownloadInfo) : Prop :=
  b.2.created_at ≤ a.2.created_at

/-- Phase of the (single) worker run attached to one job: not yet
started, between its two lock blocks, or returned. -/
inductive WorkerPhase where
  | idle
  | running
  | finished
deriving DecidableEq

/-- Atomic mutations that can hit one job's record after its creation, in
the orders the Python code can produce them: the worker's start block
(once, first), the worker's finish block (once, after the start block),
and cancel requests (any time; `cancel_download` guards itself).  The
parameter `P` constrains which engine outcomes the environment can
deliver.  Status queries, listing and deletion do not mutate the status
field and are not steps here. -/
inductive JobStep (P : EngineOutcome → Prop) :
    DownloadInfo × WorkerPhase → DownloadInfo × WorkerPhase → Prop where
  | start (t : Nat) (r : DownloadInfo) :
      JobStep P (r, .idle) (workerStart t r, .running)
  | finish (t : Nat) (o : EngineOutcome) (r : DownloadInfo) (h : P o) :
      JobStep P (r, .running) (workerFinish t o r, .finished)
  | cancel (t : Nat) (r : DownloadInfo) (ph : WorkerPhase) :
      JobStep P (r, ph) (cancelStep t r, ph)

/-- All states one job can reach from its creation. -/
def JobReach (P : EngineOutcome → Prop) (init s : DownloadInfo × WorkerPhase) : Prop :=
  Relation.ReflTransGen (JobStep P) init s

/-- No constraint on engine outcomes. -/
def TrivOutcome : EngineOutcome → Prop := fun _ => True

/-- The media-engine boundary promise of the spec: a successful download
writes at least one file into the job directory, so the directory listing
delivered with a success outcome is non-empty. -/
def NonemptyOnSuccess : EngineOutcome → Prop :=
  fun o => ∀ fs, o = .success fs → fs ≠ []

/-- `l` is an interleaving of `l1` and `l2` (two threads' action
sequences merged in program order). -/
inductive Interleaving {α : Type} : List α → List α → List α → Prop where
  | nil : Interleaving [] [] []
  | left {x : α} {xs ys zs : List α} :
      Interleaving xs ys zs → Interleaving (x :: xs) ys (x :: zs)
  | right {y : α} {xs ys zs : List α} :
      Interleaving xs ys zs → Interleaving xs (y :: ys) (y :: zs)

/-- The two atomic actions one `start_download` request performs against
the shared table: the unlocked admission count (line 226 runs outside
`download_lock`) and the locked insert (lines 247-254).  Thread `1` and
thread `2` are two concurrent requests. -/
inductive SubAction where
  | check1
  | check2
  | insert1
  | insert2
deriving DecidableEq

/-- Shared table plus each request thread's remembered admission verdict
(`none` until its check has run). -/
structure TwoSubmit where
  reg : Registry
  verdict1 : Option Bool
  verdict2 : Option Bool
deriving DecidableEq

/-- One atomic action of one of the two concurrent `start_download`
requests: a check reads the current count and stores the verdict
`active_count < cap`; an insert creates the fresh record exactly when its
thread's verdict was positive (a rejected request answers 429 and never
reaches the insert). -/
def subAction (cap : Nat) (id1 id2 url : String) (opts : DownloadOptions) (now : Nat)
    (s : TwoSubmit) : SubAction → TwoSubmit
  | .check1 => { s with verdict1 := some (decide (activeCount s.reg < cap)) }
  | .check2 => { s with verdict2 := some (decide (activeCount s.reg < cap)) }
  | .insert1 =>
    if s.verdict1 = some true then
      { s with reg := s.reg ++ [(id1, freshRecord url opts now)] }
    else s
  | .insert2 =>
    if s.verdict2 = some true then
      { s with reg := s.reg ++ [(id2, freshRecord url opts now)] }
    else s

/-- Run a schedule (a merged sequence of the two requests' actions). -/
def runSchedule (cap : Nat) (id1 id2 url : String) (opts : DownloadOptions) (now : Nat)
    (s : TwoSubmit) (sched : List SubAction) : TwoSubmit :=
  sched.foldl (subAction cap id1 id2 url opts now) s

/-- A file under the downloads root as the cleanup thread sees it:
its path, its modification time, and whether `unlink` would raise for
it. -/
structure FsFile where
  path : String
  mtime : Int
  unlinkFails : Bool
deriving DecidableEq

/-- Default of `CLEANUP_INTERVAL_HOURS` (line 33), the retention window
in hours used by the cleanup thread. -/
def CLEANUP_INTERVAL_HOURS_default : Nat := 24

/-- One cycle of `DownloadManager._cleanup_old_files` (lines 64-85) over
the files under the downloads root, returning (deleted, remaining): a
file older than `now - window` is unlinked; when the unlink raises, the
failure is logged and the loop continues with the remaining files. -/
def cleanupPass (now window : Int) : List FsFile → List FsFile × List FsFile
  | [] => ([], [])
  | f :: rest =>
    let done := cleanupPass now window rest
    if f.mtime < now - window then
      if f.unlinkFails then (done.1, f :: done.2) else (f :: done.1, done.2)
    else (done.1, f :: done.2)

/-- One cleanup cycle viewed against the whole shared state: the thread
reads and writes only the filesystem, never `active_downloads`. -/
def cleanupCycle (now window : Int) (st : Registry × List FsFile) :
    Registry × List FsFile :=
  (st.1, (cleanupPass now window st.2).2)

/-! Helper lemmas about the registry operations. -/

theorem activeCount_cons (p : String × DownloadInfo) (rest : Registry) :
    activeCount (p :: rest) = (if isActive p.2 then 1 else 0) + activeCount rest := by
  unfold activeCount
  by_cases h : isActive p.2
  · simp [List.filter_cons, h, Nat.add_comm]
  · simp [List.filter_cons, h]

theorem updateReg_eq_of_not_mem (reg : Registry) (j : String)
    (f : DownloadInfo → DownloadInfo) (h : j ∉ reg.map Prod.fst) :
    updateReg reg j f = reg := by
  induction reg with
  | nil => rfl
  | cons p rest ih =>
    have h1 : ¬ p.1 = j := by
      intro e
      exact h (by simp [e])
    have h2 : j ∉ rest.map Prod.fst := by
      intro e
      exact h (by simp [e])
    unfold updateReg
    rw [List.map_cons, if_neg h1]
    exact congrArg (List.cons p) (ih h2)

theorem lookupReg_eraseReg (reg : Registry) (id : String) :
    lookupReg (eraseReg reg id) id = none := by
  induction reg with
  | nil => rfl
  | cons p rest ih =>
    by_cases h : p.1 = id
    · simpa [eraseReg, List.filter_cons, h] using ih
    · simpa [eraseReg, List.filter_cons, h, lookupReg] using ih

theorem activeCount_updateReg (reg : Registry) (j : String) (r : DownloadInfo)
    (f : DownloadInfo → DownloadInfo) (hnd : NoDupKeys reg)
    (hl : lookupReg reg j = some r) (ha : isActive r = true)
    (hf : isActive (f r) = false) :
    activeCount (updateReg reg j f) + 1 = activeCount reg := by
  induction reg with
  | nil => simp [lookupReg] at hl
  | cons p rest ih =>
    obtain ⟨k, v⟩ := p
    have hnd' : NoDupKeys rest := by
      have := hnd
      unfold NoDupKeys at this ⊢
      simpa using (List.nodup_cons.mp (by simpa using this)).2
    by_cases h : k = j
    · have hv : v = r := by
        simpa [lookupReg, h] using hl
      have hnotmem : j ∉ rest.map Prod.fst := by
        have := hnd
        unfold NoDupKeys at this
        have hk : k ∉ rest.map Prod.fst :=
          (List.nodup_cons.mp (by simpa using this)).1
        simpa [h] using hk
      have hupd : updateReg ((k, v) :: rest) j f = (k, f v) :: rest := by
        unfold updateReg
        rw [List.map_cons, if_pos h]
        exact congrArg (List.cons (k, f v)) (updateReg_eq_of_not_mem rest j f hnotmem)
      rw [hupd, activeCount_cons, activeCount_cons]
      simp [hv, hf, ha, Nat.add_comm]
    · have hl' : lookupReg rest j = some r := by
        simpa [lookupReg, h] using hl
      have hupd : updateReg ((k, v) :: rest) j f = (k, v) :: updateReg rest j f := by
        unfold updateReg
        rw [List.map_cons, if_neg h]
      rw [hupd, activeCount_cons, activeCount_cons]
      have := ih hnd' hl'
      omega

/-- C2: with the active count at the configured cap, a submission is
rejected with the retriable message carrying the cap and the registry is
untouched; the rejection message contains the rendered cap; and as soon
as one active record is moved to a terminal state (any mutation `f` whose
result is no longer `queued`/`downloading`), the count drops below the
cap and the next submission is admitted, appending a fresh record in
state `queued`. -/
theorem C2_admission_control (cap : Nat) (reg : Registry) (id url j : String)
    (opts : DownloadOptions) (now : Nat) :
    (activeCount reg = cap →
      start_download_create cap reg id url opts now =
        (.rejected (admissionMessage cap), reg)) ∧
    (∃ pre post, admissionMessage cap = pre ++ toString cap ++ post) ∧
    (∀ r f, activeCount reg = cap → NoDupKeys reg → lookupReg reg j = some r →
      isActive r = true → isActive (f r) = false →
      activeCount (updateReg reg j f) < cap ∧
      start_download_create cap (updateReg reg j f) id url opts now =
        (.admitted id, updateReg reg j f ++ [(id, freshRecord url opts now)]) ∧
      (freshRecord url opts now).status = .queued) := by
  refine ⟨?_, ⟨"Maximum concurrent downloads (", ") reached", rfl⟩, ?_⟩
  · intro h
    simp [start_download_create, h]
  · intro r f hcap hnd hl ha hf
    have hcount := activeCount_updateReg reg j r f hnd hl ha hf
    have hlt : activeCount (updateReg reg j f) < cap := by omega
    refine ⟨hlt, ?_, rfl⟩
    simp [start_download_create, Nat.not_le.mpr hlt]

/-- Witness for C2 at cap 1: one queued record fills the cap; cancelling
it frees the slot and the next submission is admitted. -/
theorem C2_admission_control_witness :
    activeCount (updateReg [("a", freshRecord "u" defaultOptions 0)] "a" (cancelRecord 5)) < 1 ∧
    start_download_create 1
        (updateReg [("a", freshRecord "u" defaultOptions 0)] "a" (cancelRecord 5))
        "b" "u" defaultOptions 9 =
      (.admitted "b",
        updateReg [("a", freshRecord "u" defaultOptions 0)] "a" (cancelRecord 5) ++
          [("b", freshRecord "u" defaultOptions 9)]) := by
  have h := (C2_admission_control 1 [("a", freshRecord "u" defaultOptions 0)] "b" "u" "a"
      defaultOptions 9).2.2 (freshRecord "u" defaultOptions 0) (cancelRecord 5)
      (by decide) (by unfold NoDupKeys; decide) (by decide) (by decide) (by decide)
  exact ⟨h.1, h.2.1⟩

/-- C4: a cancel request against a record whose state is terminal
(`completed`, `failed` or `cancelled`) answers the invalid-state error
and returns the registry exactly as it was, so every field of every
record is unchanged. -/
theorem C4_cancel_terminal_rejected (reg : Registry) (id : String) (t : Nat)
    (r : DownloadInfo) (hl : lookupReg reg id = some r)
    (ht : isTerminal r.status = true) :
    cancel_download reg id t = (.invalidState, reg) := by
  have hact : isActive r = false := by
    cases hs : r.status <;> simp [isActive, isTerminal, hs] at ht ⊢
  simp [cancel_download, hl, hact]

/-- Witness for C4: cancelling an already-cancelled record fails and
leaves the registry unchanged. -/
theorem C4_cancel_terminal_rejected_witness :
    cancel_download [("a", cancelRecord 1 (freshRecord "u" defaultOptions 0))] "a" 7 =
      (.invalidState, [("a", cancelRecord 1 (freshRecord "u" defaultOptions 0))]) :=
  C4_cancel_terminal_rejected _ "a" 7 (cancelRecord 1 (freshRecord "u" defaultOptions 0))
    (by decide) (by decide)

/-- C8: whatever the engine outcome — success, reported failure, or a
raised exception — `download_worker` ends with the record in a terminal
state: success yields `completed` with the directory listing, a reported
failure yields `failed` with the fixed message, and an exception yields
`failed` with the exception text; the record is never left
`downloading`. -/
theorem C8_worker_terminal (t1 t2 : Nat) (o : EngineOutcome) (r : DownloadInfo) :
    (isTerminal (download_worker t1 t2 o r).status = true ∧
      ((download_worker t1 t2 o r).status = .completed ∨
        (download_worker t1 t2 o r).status = .failed)) ∧
    (∀ fs, o = .success fs →
      (download_worker t1 t2 o r).status = .completed ∧
        (download_worker t1 t2 o r).files = fs) ∧
    (o = .failure →
      (download_worker t1 t2 o r).status = .failed ∧
        (download_worker t1 t2 o r).error = some "Download failed") ∧
    (∀ m, o = .raised m →
      (download_worker t1 t2 o r).status = .failed ∧
        (download_worker t1 t2 o r).error = some m) := by
  cases o <;> simp [download_worker, workerFinish, workerStart, isTerminal]

/-- Witness for C8: a reported engine failure leaves the record `failed`
with the captured message. -/
theorem C8_worker_terminal_witness :
    (download_worker 0 1 .failure (freshRecord "u" defaultOptions 0)).status = .failed ∧
    (download_worker 0 1 .failure (freshRecord "u" defaultOptions 0)).error =
      some "Download failed" :=
  (C8_worker_terminal 0 1 .failure (freshRecord "u" defaultOptions 0)).2.2.1 rfl

/-- C10: when `rmtree` raises, `delete_download` surfaces the error and
the registry entry survives, so a status query still answers the full
record; the entry is erased only on the success path, after which the
status query answers not-found. -/
theorem C10_delete_atomic (reg : Registry) (id : String) (r : DownloadInfo)
    (e : String) (dirExists : Bool) (hl : lookupReg reg id = some r) :
    (delete_download reg id true (some e) = (.ioError e, reg) ∧
      get_download_status reg id = some r) ∧
    (delete_download reg id dirExists none = (.deleteOk, eraseReg reg id) ∧
      get_download_status (eraseReg reg id) id = none) := by
  refine ⟨⟨?_, hl⟩, ⟨?_, lookupReg_eraseReg reg id⟩⟩
  · simp [delete_download, hl]
  · cases dirExists <;> simp [delete_download, hl]

/-- Witness for C10: a failing removal answers the IO error and the
record is still there. -/
theorem C10_delete_atomic_witness :
    delete_download [("a", freshRecord "u" defaultOptions 0)] "a" true (some "disk error") =
      (.ioError "disk error", [("a", freshRecord "u" defaultOptions 0)]) ∧
    get_download_status [("a", freshRecord "u" defaultOptions 0)] "a" =
      some (freshRecord "u" defaultOptions 0) :=
  (C10_delete_atomic [("a", freshRecord "u" defaultOptions 0)] "a"
    (freshRecord "u" defaultOptions 0) "disk error" true (by decide)).1

/-! Lemmas about the stable newest-first sort of `list_downloads`. -/

theorem mem_insertDesc (p q : String × DownloadInfo) (l : List (String × DownloadInfo)) :
    q ∈ insertDesc p l ↔ q = p ∨ q ∈ l := by
  induction l with
  | nil => simp [insertDesc]
  | cons a rest ih =>
    by_cases h : a.2.created_at < p.2.created_at
    · simp [insertDesc, h]
    · simp [insertDesc, h, ih]
      tauto

theorem pairwise_insertDesc (p : String × DownloadInfo) (l : List (String × DownloadInfo))
    (hs : l.Pairwise newerEq) : (insertDesc p l).Pairwise newerEq := by
  induction l with
  | nil => simp [insertDesc, newerEq]
  | cons a rest ih =>
    rcases List.pairwise_cons.mp hs with ⟨ha, hrest⟩
    by_cases h : a.2.created_at < p.2.created_at
    · simp only [insertDesc, if_pos h]
      refine List.pairwise_cons.mpr ⟨?_, hs⟩
      intro b hb
      rcases List.mem_cons.mp hb with rfl | hb'
      · exact Nat.le_of_lt h
      · exact Nat.le_trans (ha b hb') (Nat.le_of_lt h)
    · simp only [insertDesc, if_neg h]
      refine List.pairwise_cons.mpr ⟨?_, ih hrest⟩
      intro b hb
      rcases (mem_insertDesc p b rest).mp hb with rfl | hb'
      · exact Nat.not_lt.mp h
      · exact ha b hb'

theorem mem_sortDesc (q : String × DownloadInfo) (l : List (String × DownloadInfo)) :
    q ∈ sortDesc l ↔ q ∈ l := by
  induction l with
  | nil => simp [sortDesc]
  | cons a rest ih => simp [sortDesc, mem_insertDesc, ih]

theorem pairwise_sortDesc (l : List (String × DownloadInfo)) :
    (sortDesc l).Pairwise newerEq := by
  induction l with
  | nil => simp [sortDesc]
  | cons a rest ih => exact pairwise_insertDesc a (sortDesc rest) ih

theorem pairwise_list_downloads (reg : Registry) (filt : Option JobState)
    (limit : Option Nat) : (list_downloads reg filt limit).Pairwise newerEq := by
  unfold list_downloads
  rcases filt with _ | s0 <;> rcases limit with _ | n <;> simp only
  · exact pairwise_sortDesc _
  · split
    · exact (pairwise_sortDesc _).sublist (List.take_sublist _ _)
    · exact pairwise_sortDesc _
  · exact pairwise_sortDesc _
  · split
    · exact (pairwise_sortDesc _).sublist (List.take_sublist _ _)
    · exact pairwise_sortDesc _

/-- C6 (amended): without a limit a state filter yields exactly the
records in that state; a positive limit caps the result length; the
result is always ordered by `created_at` newest first; and the limit is
applied after the filter, so even a limited result holds only matching
records.  (A limit of `0` is falsy in Python and truncates nothing — see
the counterexample.) -/
theorem C6_listing (reg : Registry) (s : JobState) (filt : Option JobState)
    (limit : Option Nat) :
    (∀ p, p ∈ list_downloads reg (some s) none ↔ p ∈ reg ∧ p.2.status = s) ∧
    (∀ n, n ≠ 0 → (list_downloads reg filt (some n)).length ≤ n) ∧
    (list_downloads reg filt limit).Pairwise newerEq ∧
    (∀ n p, p ∈ list_downloads reg (some s) (some n) → p.2.status = s) := by
  refine ⟨?_, ?_, pairwise_list_downloads reg filt limit, ?_⟩
  · intro p
    simp [list_downloads, mem_sortDesc, List.mem_filter]
  · intro n hn
    rcases filt with _ | s0 <;> simp [list_downloads, hn, List.length_take_le]
  · intro n p hp
    have hmem : p ∈ sortDesc (List.filter (fun q => decide (q.2.status = s)) reg) := by
      by_cases hn : n = 0
      · simpa [list_downloads, hn] using hp
      · exact List.take_subset _ _ (by simpa [list_downloads, hn] using hp)
    have hf := (mem_sortDesc p _).mp hmem
    simpa using (List.mem_filter.mp hf).2

/-- Counterexample for C6 as stated: a requested limit of `0` passes
`if limit:` as falsy, so nothing is truncated and the result holds one
record, not at most zero. -/
theorem C6_counterexample :
    (list_downloads [("a", freshRecord "u" defaultOptions 0)] none (some 0)).length = 1 ∧
    ¬ (list_downloads [("a", freshRecord "u" defaultOptions 0)] none (some 0)).length ≤ 0 := by
  constructor <;> decide

/-- Witness for C6: a positive limit of 1 caps a one-record listing at
one entry. -/
theorem C6_listing_witness :
    (list_downloads [("a", freshRecord "u" defaultOptions 0)] none (some 1)).length ≤ 1 :=
  (C6_listing [("a", freshRecord "u" defaultOptions 0)] .queued none (some 1)).2.1 1
    (by decide)

/-! Invariants of the per-job step relation. -/

theorem jobInv_phase (P : EngineOutcome → Prop) (u : String) (opts : DownloadOptions)
    (t0 : Nat) (s : DownloadInfo × WorkerPhase)
    (h : JobReach P (freshRecord u opts t0, .idle) s) :
    (s.1.status = .completed ∨ s.1.status = .failed) → s.2 = .finished := by
  induction h with
  | refl =>
    intro ht
    simp [freshRecord] at ht
  | tail hab hbc ih =>
    intro ht
    cases hbc with
    | start t r => simp [workerStart] at ht
    | finish t o r hP => rfl
    | cancel t r ph =>
      by_cases hA : isActive r = true
      · simp [cancelStep, hA, cancelRecord] at ht
      · have hA' : isActive r = false := by simpa using hA
        have heq : cancelStep t r = r := by simp [cancelStep, hA']
        rw [heq] at ht
        exact ih ht

theorem jobStep_fixed (P : EngineOutcome → Prop) (s s' : DownloadInfo × WorkerPhase)
    (hph : s.2 = .finished) (ht : s.1.status = .completed ∨ s.1.status = .failed)
    (hstep : JobStep P s s') : s' = s := by
  cases hstep with
  | start t r => simp at hph
  | finish t o r hP => simp at hph
  | cancel t r ph =>
    have hA : isActive r = false := by
      have h2 : r.status = .completed ∨ r.status = .failed := by simpa using ht
      rcases h2 with h2 | h2 <;> simp [isActive, h2]
    simp [cancelStep, hA]

/-- C1 (amended): once a record reaches `completed` or `failed`, no later
executor or cancel step changes anything about it — those two terminal
states really are final.  `cancelled`, however, is not final in the code:
`download_worker` re-checks nothing, so its unconditional transitions can
overwrite a concurrently-set `cancelled` (see the counterexample).
Status queries, listing and deletion never rewrite the status field. -/
theorem C1_completed_failed_final (P : EngineOutcome → Prop) (u : String)
    (opts : DownloadOptions) (t0 : Nat) (s s' : DownloadInfo × WorkerPhase)
    (hreach : JobReach P (freshRecord u opts t0, .idle) s)
    (ht : s.1.status = .completed ∨ s.1.status = .failed)
    (hsteps : Relation.ReflTransGen (JobStep P) s s') : s' = s := by
  induction hsteps with
  | refl => rfl
  | tail hab hbc ih =>
    rw [ih] at hbc
    exact jobStep_fixed P s _ (jobInv_phase P u opts t0 s hreach ht) ht hbc

/-- Counterexample for C1 as stated: a record cancelled right after
creation is in the terminal state `cancelled`, yet the worker's
unconditional start block — a step the code really performs next — moves
it to `downloading`. -/
theorem C1_counterexample :
    isTerminal (cancelStep 1 (freshRecord "u" defaultOptions 0)).status = true ∧
    JobReach TrivOutcome (freshRecord "u" defaultOptions 0, .idle)
      (cancelStep 1 (freshRecord "u" defaultOptions 0), .idle) ∧
    JobStep TrivOutcome (cancelStep 1 (freshRecord "u" defaultOptions 0), .idle)
      (workerStart 2 (cancelStep 1 (freshRecord "u" defaultOptions 0)), .running) ∧
    (cancelStep 1 (freshRecord "u" defaultOptions 0)).status = .cancelled ∧
    (workerStart 2 (cancelStep 1 (freshRecord "u" defaultOptions 0))).status = .downloading := by
  refine ⟨by decide, ?_, ?_, by decide, by decide⟩
  · exact Relation.ReflTransGen.single
      (JobStep.cancel 1 (freshRecord "u" defaultOptions 0) .idle)
  · exact JobStep.start 2 (cancelStep 1 (freshRecord "u" defaultOptions 0))

/-- Witness for C1: a job completed by the worker is unchanged by a later
cancel step. -/
theorem C1_completed_failed_final_witness :
    (cancelStep 3 (download_worker 1 2 (.success ["video.mp4"]) (freshRecord "u" defaultOptions 0)),
        WorkerPhase.finished) =
      (download_worker 1 2 (.success ["video.mp4"]) (freshRecord "u" defaultOptions 0),
        WorkerPhase.finished) := by
  have hreach : JobReach TrivOutcome (freshRecord "u" defaultOptions 0, .idle)
      (download_worker 1 2 (.success ["video.mp4"]) (freshRecord "u" defaultOptions 0),
        .finished) :=
    Relation.ReflTransGen.tail
      (Relation.ReflTransGen.single (JobStep.start 1 (freshRecord "u" defaultOptions 0)))
      (JobStep.finish 2 (.success ["video.mp4"])
        (workerStart 1 (freshRecord "u" defaultOptions 0)) trivial)
  exact C1_completed_failed_final TrivOutcome "u" defaultOptions 0 _ _ hreach
    (Or.inl rfl)
    (Relation.ReflTransGen.single
      (JobStep.cancel 3
        (download_worker 1 2 (.success ["video.mp4"]) (freshRecord "u" defaultOptions 0))
        .finished))

theorem jobInv_files (u : String) (opts : DownloadOptions) (t0 : Nat)
    (s : DownloadInfo × WorkerPhase)
    (h : JobReach NonemptyOnSuccess (freshRecord u opts t0, .idle) s) :
    (s.1.files ≠ [] ↔ s.1.status = .completed) ∧
    (s.2 ≠ .finished → s.1.files = [] ∧ s.1.status ≠ .completed) := by
  induction h with
  | refl => simp [freshRecord]
  | tail hab hbc ih =>
    cases hbc with
    | start t r =>
      dsimp only at ih ⊢
      have hprev := ih.2 (by decide)
      constructor
      · simp [workerStart, hprev.1]
      · intro _
        simp [workerStart, hprev.1]
    | finish t o r hP =>
      dsimp only at ih ⊢
      have hprev := ih.2 (by decide)
      cases o with
      | success fs =>
        have hne : fs ≠ [] := hP fs rfl
        constructor
        · simp [workerFinish, hne]
        · intro hph
          exact absurd rfl hph
      | failure =>
        constructor
        · simp [workerFinish, hprev.1]
        · intro hph
          exact absurd rfl hph
      | raised m =>
        constructor
        · simp [workerFinish, hprev.1]
        · intro hph
          exact absurd rfl hph
    | cancel t r ph =>
      dsimp only at ih ⊢
      by_cases hA : isActive r = true
      · have hnc : ¬ r.status = .completed := by
          intro he
          simp [isActive, he] at hA
        have hfe : r.files = [] := by
          by_contra hne
          exact hnc (ih.1.mp hne)
        constructor
        · simp [cancelStep, hA, cancelRecord, hfe]
        · intro _
          simp [cancelStep, hA, cancelRecord, hfe]
      · have hA' : isActive r = false := by simpa using hA
        have heq : cancelStep t r = r := by simp [cancelStep, hA']
        simpa [heq] using ih

/-- C5: along every realizable life of one job — creation in `queued`
with an empty file list, the worker's two blocks in order, cancel
requests at any time — the `files` field is non-empty exactly when the
state is `completed`.  The success branch copies the job directory's
listing unchecked, so the forward direction relies on the engine-boundary
guarantee (`NonemptyOnSuccess`) that a successful download has written at
least one file; fresh `queued` records and `failed` records always carry
an empty list. -/
theorem C5_files_nonempty_iff_completed (u : String) (opts : DownloadOptions)
    (t0 : Nat) (s : DownloadInfo × WorkerPhase)
    (h : JobReach NonemptyOnSuccess (freshRecord u opts t0, .idle) s) :
    s.1.files ≠ [] ↔ s.1.status = .completed :=
  (jobInv_files u opts t0 s h).1

/-- Witness for C5: the record completed with listing `video.mp4` has a
non-empty file list, and the fresh record has an empty one. -/
theorem C5_files_nonempty_iff_completed_witness :
    ((download_worker 1 2 (.success ["video.mp4"]) (freshRecord "u" defaultOptions 0)).files ≠ []
      ↔ (download_worker 1 2 (.success ["video.mp4"])
          (freshRecord "u" defaultOptions 0)).status = .completed) :=
  C5_files_nonempty_iff_completed "u" defaultOptions 0 _
    (Relation.ReflTransGen.tail
      (Relation.ReflTransGen.single (JobStep.start 1 (freshRecord "u" defaultOptions 0)))
      (JobStep.finish 2 (.success ["video.mp4"])
        (workerStart 1 (freshRecord "u" defaultOptions 0))
        (fun fs hfs => by injection hfs with hh; subst hh; decide)))

/-- Counterexample for C3 as stated: with cap 1 and an empty table, the
legal interleaving check1, check2, insert1, insert2 of two submissions
lets both pass the admission check, and their joint creation leaves two
active records — more than the cap.  The race exists because the count of
line 226 is a separate atomic action from the locked insert of lines
247-254. -/
theorem C3_counterexample :
    ∃ sched : List SubAction,
      Interleaving [SubAction.check1, SubAction.insert1]
        [SubAction.check2, SubAction.insert2] sched ∧
      (runSchedule 1 "id1" "id2" "u" defaultOptions 0
          { reg := [], verdict1 := none, verdict2 := none } sched).verdict1 = some true ∧
      (runSchedule 1 "id1" "id2" "u" defaultOptions 0
          { reg := [], verdict1 := none, verdict2 := none } sched).verdict2 = some true ∧
      1 < activeCount (runSchedule 1 "id1" "id2" "u" defaultOptions 0
          { reg := [], verdict1 := none, verdict2 := none } sched).reg := by
  refine ⟨[.check1, .check2, .insert1, .insert2],
    Interleaving.left (Interleaving.right (Interleaving.left
      (Interleaving.right Interleaving.nil))),
    by decide, by decide, by decide⟩

/-- C3 (amended): admission and create are two separate atomic steps (the
count even runs outside `download_lock`), so the pair is not one critical
section: under the schedule check1, check2, insert1, insert2 with cap 1,
both submissions pass the check and the table ends with two active
records, exceeding the cap. -/
theorem C3_admission_check_races :
    (runSchedule 1 "id1" "id2" "u" defaultOptions 0
        { reg := [], verdict1 := none, verdict2 := none }
        [.check1, .check2, .insert1, .insert2]).verdict1 = some true ∧
    (runSchedule 1 "id1" "id2" "u" defaultOptions 0
        { reg := [], verdict1 := none, verdict2 := none }
        [.check1, .check2, .insert1, .insert2]).verdict2 = some true ∧
    activeCount (runSchedule 1 "id1" "id2" "u" defaultOptions 0
        { reg := [], verdict1 := none, verdict2 := none }
        [.check1, .check2, .insert1, .insert2]).reg = 2 := by
  refine ⟨by decide, by decide, by decide⟩

/-- C7 (amended): the container filter keeps exactly the names whose
lower-cased form ends in `.mp4`, as an order-preserving sublist, and on
the example listing yields `video.mp4`; when at least one name survives
the filter, the submission path returns that filtered list.  (When none
survives, the `mp4_files[0]` subscript for `file_url` raises — see the
counterexample.) -/
theorem C7_mp4_selection (files : List String) (id : String) (info : DownloadInfo)
    (f : String) (rest : List String) :
    (mp4Filter files).Sublist files ∧
    (∀ g, g ∈ mp4Filter files ↔ g ∈ files ∧ pyEndsWith (pyLower g) ".mp4" = true) ∧
    mp4Filter ["video.mp4", "video.info.json"] = ["video.mp4"] ∧
    (info.status = .completed → mp4Filter info.files = f :: rest →
      start_download_response id info =
        .ok id (f :: rest) (fileUrlBase ++ id ++ "/files/" ++ f)) := by
  refine ⟨List.filter_sublist _, ?_, by decide, ?_⟩
  · intro g
    simp [mp4Filter, List.mem_filter]
  · intro hst hm
    simp [start_download_response, hst, hm]

/-- Counterexample for C7 as stated: when the engine succeeds but no
produced name passes the container filter, the path does not return the
(empty) filtered list — building `file_url` from `mp4_files[0]` raises
`IndexError` inside the handler and the caller gets a 500 error. -/
theorem C7_counterexample :
    mp4Filter ["video.info.json"] = [] ∧
    start_download_response "j1"
        { freshRecord "u" defaultOptions 0 with
            status := .completed, files := ["video.info.json"] } =
      .err 500 "list index out of range" := by
  constructor <;> decide

/-- Witness for C7: the worked example of the spec. -/
theorem C7_mp4_selection_witness :
    start_download_response "j1"
        { freshRecord "u" defaultOptions 0 with
            status := .completed, files := ["video.mp4", "video.info.json"] } =
      .ok "j1" ["video.mp4"] (fileUrlBase ++ "j1" ++ "/files/" ++ "video.mp4") :=
  (C7_mp4_selection ["video.mp4", "video.info.json"] "j1"
      { freshRecord "u" defaultOptions 0 with
          status := .completed, files := ["video.mp4", "video.info.json"] }
      "video.mp4" []).2.2.2 rfl (by decide)

theorem cleanupPass_eq_filter (now window : Int) (fs : List FsFile) :
    cleanupPass now window fs =
      (fs.filter (fun f => decide (f.mtime < now - window) && !f.unlinkFails),
        fs.filter (fun f => !(decide (f.mtime < now - window)) || f.unlinkFails)) := by
  induction fs with
  | nil => rfl
  | cons g rest ih =>
    by_cases h1 : g.mtime < now - window
    · have d1 : decide (g.mtime < now - window) = true := decide_eq_true h1
      by_cases h2 : g.unlinkFails = true
      · simp [cleanupPass, h1, h2, d1, ih]
      · have h2' : g.unlinkFails = false := by simpa using h2
        simp [cleanupPass, h1, h2', d1, ih]
    · have d1 : decide (g.mtime < now - window) = false := decide_eq_false h1
      simp [cleanupPass, h1, d1, ih]

/-- C9: in one sweep over the downloads root, a file ends up deleted
exactly when it is older than the retention window and its unlink does
not fail; a file whose unlink raises stays behind but — the recursion
continuing past it — every other old file is still deleted; the cycle
leaves the registry component of the shared state untouched; and the
configured window defaults to 24 hours. -/
theorem C9_cleanup_sweep (now window : Int) (fs : List FsFile) (reg : Registry) :
    (∀ f, f ∈ (cleanupPass now window fs).1 ↔
      f ∈ fs ∧ f.mtime < now - window ∧ f.unlinkFails = false) ∧
    (∀ f, f ∈ (cleanupPass now window fs).2 ↔
      f ∈ fs ∧ (¬ f.mtime < now - window ∨ f.unlinkFails = true)) ∧
    (cleanupCycle now window (reg, fs)).1 = reg ∧
    CLEANUP_INTERVAL_HOURS_default = 24 := by
  refine ⟨?_, ?_, rfl, rfl⟩
  · intro f
    rw [cleanupPass_eq_filter]
    simp [List.mem_filter, Bool.and_eq_true, decide_eq_true_eq, Bool.not_eq_true']
  · intro f
    rw [cleanupPass_eq_filter]
    simp [List.mem_filter, Bool.or_eq_true, decide_eq_true_eq, Bool.not_eq_true]

/-- Witness for C9: a 25-hour-old file is swept under a 24-hour window
while a 1-hour-old file stays (times in hours). -/
theorem C9_cleanup_sweep_witness :
    { path := "old.mp4", mtime := 75, unlinkFails := false : FsFile } ∈
      (cleanupPass 100 24
        [{ path := "old.mp4", mtime := 75, unlinkFails := false },
         { path := "new.mp4", mtime := 99, unlinkFails := false }]).1 ∧
    { path := "new.mp4", mtime := 99, unlinkFails := false : FsFile } ∈
      (cleanupPass 100 24
        [{ path := "old.mp4", mtime := 75, unlinkFails := false },
         { path := "new.mp4", mtime := 99, unlinkFails := false }]).2 := by
  constructor
  · exact ((C9_cleanup_sweep 100 24
      [{ path := "old.mp4", mtime := 75, unlinkFails := false },
       { path := "new.mp4", mtime := 99, unlinkFails := false }] []).1 _).mpr
      ⟨by decide, by decide, rfl⟩
  · exact ((C9_cleanup_sweep 100 24
      [{ path := "old.mp4", mtime := 75, unlinkFails := false },
       { path := "new.mp4", mtime := 99, unlinkFails := false }] []).2.1 _).mpr
      ⟨by decide, by decide⟩
